import Mathlib

/-!
Verification of the TaskFlow API (src/main.py): a shallow embedding of the
task store and the HTTP endpoint handlers, followed by theorems about the
claims of the specification.

Modelling conventions:
* A `TaskModel` row mirrors the SQLAlchemy `TaskModel` object as it lives in
  Python memory: `title`, `description` and `is_completed` are `Option`-valued
  because `setattr` in `update_task` can store `None` into any of them
  (the pydantic `TaskUpdate` fields are all `Optional`).
* Task ids (UUIDs in the source) are modelled as `Nat`; timestamps
  (`func.now()` values) are modelled as `Nat` and passed explicitly to every
  handler that refreshes them.
* The database session is a `List TaskModel`; `db.query(...).first()` is
  `List.find?`, in-place mutation of the row object returned by `first()` is
  replacement of the first matching row, `db.delete` removes it, and
  `ORDER BY created_at DESC` is an insertion sort on `created_at`, descending.
* pydantic request validation (which runs before a handler and produces a 422)
  is an explicit `Except` step in front of the handler; the `exclude_unset`
  distinction between an omitted field and an explicit `null` is modelled by
  `Option (Option _)` payload fields (`none` = omitted, `some none` = null).
* The `tasks` table declares `title` and `is_completed` as `nullable=False`;
  a merge-patch that stores `None` into either column makes `db.commit()`
  raise `IntegrityError`, which surfaces as an unhandled 500 while the
  transaction is rolled back. `update_task` models this commit-time check
  explicitly: on violation it returns the 500 error and the unchanged store.
-/

/-- A row of the `tasks` table / a `TaskModel` Python object.
`created_at` and `updated_at` get `func.now()` server defaults at insert;
`updated_at` is additionally reassigned by the update and toggle handlers. -/
structure TaskModel where
  id : Nat
  title : Option String
  description : Option String
  is_completed : Option Bool
  created_at : Nat
  updated_at : Nat
deriving Repr, DecidableEq

/-- The pydantic `TaskCreate` body after validation: `title` is required,
`description` optional (defaults to `None`). -/
structure TaskCreate where
  title : String
  description : Option String
deriving Repr, DecidableEq

/-- The pydantic `TaskUpdate` body, keeping pydantic's distinction between a
field omitted from the payload (`none`, excluded by
`model_dump(exclude_unset=True)`) and a field explicitly present with value
`null` (`some none`, which is kept by `exclude_unset` and applied). -/
structure TaskUpdate where
  title : Option (Option String)
  description : Option (Option String)
  is_completed : Option (Option Bool)
deriving Repr, DecidableEq

/-- An HTTP error response: the `status_code` and `detail` of an
`HTTPException`, or a pydantic validation failure (status 422). -/
structure ApiError where
  status_code : Nat
  detail : String
deriving Repr, DecidableEq

/-- `Field(..., min_length=3, max_length=100)` on `title`. -/
def validTitle (s : String) : Bool :=
  3 ≤ s.length && s.length ≤ 100

/-- `Field(None, max_length=500)` on `description`: `None` is accepted, a
string must have length at most 500. -/
def validDescription (d : Option String) : Bool :=
  match d with
  | none => true
  | some s => s.length ≤ 500

/-- pydantic validation of a `TaskCreate` body; failure is the framework's
422 response, produced before the handler runs. -/
def validateTaskCreate (title : String) (description : Option String) :
    Except ApiError TaskCreate :=
  if validTitle title && validDescription description then
    .ok ⟨title, description⟩
  else
    .error ⟨422, "validation error"⟩

/-- pydantic validation of a `TaskUpdate` body: every constrained field is
`Optional`, so an omitted field and an explicit `null` both pass; a string
value must satisfy the field's length constraints. -/
def validateTaskUpdate (p : TaskUpdate) : Except ApiError TaskUpdate :=
  let titleOk := match p.title with
    | some (some s) => validTitle s
    | _ => true
  let descOk := match p.description with
    | some (some s) => s.length ≤ 500
    | _ => true
  if titleOk && descOk then .ok p else .error ⟨422, "validation error"⟩

/-- `get_task_by_id`: `db.query(TaskModel).filter(TaskModel.id == task_id).first()`. -/
def get_task_by_id (db : List TaskModel) (task_id : Nat) : Option TaskModel :=
  db.find? (fun t => t.id == task_id)

/-- In-place mutation of the row object returned by `first()`: the first row
whose id matches is replaced by the mutated row, the rest of the session is
untouched. -/
def setTask : List TaskModel → Nat → TaskModel → List TaskModel
  | [], _, _ => []
  | u :: us, i, t => if u.id == i then t :: us else u :: setTask us i t

/-- `db.delete(task)`: the first row whose id matches is removed. -/
def removeTask : List TaskModel → Nat → List TaskModel
  | [], _ => []
  | u :: us, i => if u.id == i then us else u :: removeTask us i

/-- The 404 `HTTPException` raised by the get/update/toggle/delete handlers:
`detail=f"Task with id \x7btask_id\x7d not found"`. -/
def notFoundError (task_id : Nat) : ApiError :=
  ⟨404, "Task with id " ++ toString task_id ++ " not found"⟩

/-- Handler `create_task` after validation: builds a `TaskModel` with
`is_completed=False`, inserts it; the server defaults fill
`created_at = updated_at = now()` and `id` with a fresh UUID (`newId`). -/
def create_task (payload : TaskCreate) (db : List TaskModel)
    (now newId : Nat) : TaskModel × List TaskModel :=
  let t : TaskModel :=
    { id := newId
      title := some payload.title
      description := payload.description
      is_completed := some false
      created_at := now
      updated_at := now }
  (t, db ++ [t])

/-- The full `POST /api/v1/tasks/` pipeline: pydantic validation of the body,
then the `create_task` handler. On validation failure the handler never runs
and the store is unchanged. -/
def post_task (title : String) (description : Option String)
    (db : List TaskModel) (now newId : Nat) :
    Except ApiError TaskModel × List TaskModel :=
  match validateTaskCreate title description with
  | .error e => (.error e, db)
  | .ok p => let r := create_task p db now newId; (.ok r.1, r.2)

/-- Handler `get_task` (`GET /api/v1/tasks/{task_id}`): 404 if absent. -/
def get_task (db : List TaskModel) (task_id : Nat) : Except ApiError TaskModel :=
  match get_task_by_id db task_id with
  | none => .error (notFoundError task_id)
  | some t => .ok t

/-- The merge-patch body of `update_task`: for each field kept by
`model_dump(exclude_unset=True)`, `setattr` stores its value (possibly
`None`); omitted fields keep their prior value; then
`task.updated_at = func.now()`. -/
def applyUpdate (p : TaskUpdate) (t : TaskModel) (now : Nat) : TaskModel :=
  { t with
    title := p.title.getD t.title
    description := p.description.getD t.description
    is_completed := p.is_completed.getD t.is_completed
    updated_at := now }

/-- The response FastAPI produces for an exception that escapes a handler,
such as the `IntegrityError` raised by `db.commit()` on a NOT NULL
violation. -/
def internalServerError : ApiError :=
  ⟨500, "Internal Server Error"⟩

/-- Handler `update_task` (`PUT /api/v1/tasks/{task_id}`) after validation:
404 if absent, otherwise merge-patch and commit. The `title` and
`is_completed` columns are `nullable=False`, so a patched row holding `None`
in either makes `db.commit()` raise `IntegrityError` — an unhandled 500 —
and the rolled-back transaction leaves the store unchanged. -/
def update_task (db : List TaskModel) (task_id : Nat) (p : TaskUpdate)
    (now : Nat) : Except ApiError TaskModel × List TaskModel :=
  match get_task_by_id db task_id with
  | none => (.error (notFoundError task_id), db)
  | some t =>
      let t' := applyUpdate p t now
      if t'.title.isNone || t'.is_completed.isNone then
        (.error internalServerError, db)
      else
        (.ok t', setTask db task_id t')

/-- The full `PUT /api/v1/tasks/{task_id}` pipeline: pydantic validation of
the body, then the `update_task` handler. -/
def put_task (db : List TaskModel) (task_id : Nat) (p : TaskUpdate)
    (now : Nat) : Except ApiError TaskModel × List TaskModel :=
  match validateTaskUpdate p with
  | .error e => (.error e, db)
  | .ok p' => update_task db task_id p' now

/-- Python `not` applied to the stored `is_completed` value
(`not None` is `True`). -/
def pynot : Option Bool → Bool
  | none => true
  | some b => !b

/-- Handler `toggle_task_status` (`PATCH /api/v1/tasks/{task_id}`): 404 if
absent, otherwise `task.is_completed = not task.is_completed` and
`task.updated_at = func.now()`. -/
def toggle_task_status (db : List TaskModel) (task_id : Nat) (now : Nat) :
    Except ApiError TaskModel × List TaskModel :=
  match get_task_by_id db task_id with
  | none => (.error (notFoundError task_id), db)
  | some t =>
      let t' := { t with is_completed := some (pynot t.is_completed),
                         updated_at := now }
      (.ok t', setTask db task_id t')

/-- Handler `delete_task` (`DELETE /api/v1/tasks/{task_id}`): 404 if absent,
otherwise the row is removed and the response body is empty (204). -/
def delete_task (db : List TaskModel) (task_id : Nat) :
    Except ApiError Unit × List TaskModel :=
  match get_task_by_id db task_id with
  | none => (.error (notFoundError task_id), db)
  | some _ => (.ok (), removeTask db task_id)

/-- The SQL predicate `TaskModel.is_completed == completed` of the optional
filter: a row whose stored flag is `NULL` matches neither `true` nor
`false`; with no filter every row is kept. -/
def matchesFilter (completed : Option Bool) (t : TaskModel) : Bool :=
  match completed with
  | none => true
  | some c => t.is_completed == some c

/-- One step of `ORDER BY created_at DESC`: insert a row in front of the
first row with a smaller-or-equal `created_at`. -/
def insertByCreatedDesc (t : TaskModel) : List TaskModel → List TaskModel
  | [] => [t]
  | u :: us =>
      if u.created_at ≤ t.created_at then t :: u :: us
      else u :: insertByCreatedDesc t us

/-- `ORDER BY created_at DESC` as an insertion sort. -/
def orderByCreatedDesc : List TaskModel → List TaskModel
  | [] => []
  | t :: ts => insertByCreatedDesc t (orderByCreatedDesc ts)

/-- Handler `get_all_tasks` (`GET /api/v1/tasks/`): optionally filter on
`is_completed`, always order by `created_at` descending. -/
def get_all_tasks (completed : Option Bool) (db : List TaskModel) :
    List TaskModel :=
  orderByCreatedDesc (db.filter (matchesFilter completed))

/-- The invariant of §3 of the spec: every live task satisfies
`updated_at >= created_at`. -/
def TimestampInv (db : List TaskModel) : Prop :=
  ∀ t ∈ db, t.created_at ≤ t.updated_at

theorem post_task_example_run :
    (post_task "Buy milk" none [] 5 1).1 =
      .ok ⟨1, some "Buy milk", none, some false, 5, 5⟩ := rfl

/-! ## Helper lemmas about the store operations -/

theorem mem_setTask {db : List TaskModel} {i : Nat} {t' u : TaskModel}
    (h : u ∈ setTask db i t') : u ∈ db ∨ u = t' := by
  induction db with
  | nil => simp [setTask] at h
  | cons v vs ih =>
      by_cases hv : v.id = i
      · simp only [setTask, hv, beq_self_eq_true, if_true, List.mem_cons] at h
        rcases h with rfl | h
        · exact Or.inr rfl
        · exact Or.inl (List.mem_cons_of_mem _ h)
      · simp only [setTask, beq_iff_eq, hv, if_false, List.mem_cons] at h
        rcases h with rfl | h
        · exact Or.inl (List.mem_cons_self _ _)
        · rcases ih h with h | h
          · exact Or.inl (List.mem_cons_of_mem _ h)
          · exact Or.inr h

theorem mem_removeTask {db : List TaskModel} {i : Nat} {u : TaskModel}
    (h : u ∈ removeTask db i) : u ∈ db := by
  induction db with
  | nil => simp [removeTask] at h
  | cons v vs ih =>
      by_cases hv : v.id = i
      · simp only [removeTask, hv, beq_self_eq_true, if_true] at h
        exact List.mem_cons_of_mem _ h
      · simp only [removeTask, beq_iff_eq, hv, if_false, List.mem_cons] at h
        rcases h with rfl | h
        · exact List.mem_cons_self _ _
        · exact List.mem_cons_of_mem _ (ih h)

theorem get_task_by_id_setTask {db : List TaskModel} {i : Nat}
    {t t' : TaskModel} (hf : get_task_by_id db i = some t) (hid : t'.id = i) :
    get_task_by_id (setTask db i t') i = some t' := by
  induction db with
  | nil => simp [get_task_by_id] at hf
  | cons u us ih =>
      by_cases hu : u.id = i
      · simp only [setTask]
        rw [if_pos (show (u.id == i) = true by simpa using hu)]
        unfold get_task_by_id
        exact List.find?_cons_of_pos _ (by simpa using hid)
      · simp only [setTask]
        rw [if_neg (show ¬(u.id == i) = true by simpa using hu)]
        unfold get_task_by_id at hf ⊢
        rw [List.find?_cons_of_neg _ (by simpa using hu)] at hf ⊢
        exact ih hf

theorem get_task_by_id_of_mem_append_fresh {db : List TaskModel}
    {t : TaskModel} (hfresh : ∀ u ∈ db, u.id ≠ t.id) :
    get_task_by_id (db ++ [t]) t.id = some t := by
  induction db with
  | nil => simp [get_task_by_id]
  | cons u us ih =>
      have hu : u.id ≠ t.id := hfresh u (List.mem_cons_self _ _)
      simp only [List.cons_append]
      unfold get_task_by_id
      rw [List.find?_cons_of_neg _ (by simpa using hu)]
      exact ih fun v hv => hfresh v (List.mem_cons_of_mem _ hv)

theorem mem_of_get_task_by_id {db : List TaskModel} {i : Nat}
    {t : TaskModel} (h : get_task_by_id db i = some t) : t ∈ db :=
  List.mem_of_find?_eq_some h

theorem id_of_get_task_by_id {db : List TaskModel} {i : Nat}
    {t : TaskModel} (h : get_task_by_id db i = some t) : t.id = i := by
  have := List.find?_some h
  simpa using this

/-! ## Helper lemmas about the ordering -/

theorem mem_insertByCreatedDesc {u t : TaskModel} {l : List TaskModel} :
    u ∈ insertByCreatedDesc t l ↔ u = t ∨ u ∈ l := by
  induction l with
  | nil => simp [insertByCreatedDesc]
  | cons v vs ih =>
      by_cases h : v.created_at ≤ t.created_at
      · simp [insertByCreatedDesc, h]
      · simp only [insertByCreatedDesc, h, if_false, List.mem_cons, ih]
        tauto

theorem mem_orderByCreatedDesc {u : TaskModel} {l : List TaskModel} :
    u ∈ orderByCreatedDesc l ↔ u ∈ l := by
  induction l with
  | nil => simp [orderByCreatedDesc]
  | cons v vs ih =>
      simp [orderByCreatedDesc, mem_insertByCreatedDesc, ih]

theorem pairwise_insertByCreatedDesc {t : TaskModel} {l : List TaskModel}
    (h : l.Pairwise (fun a b => b.created_at ≤ a.created_at)) :
    (insertByCreatedDesc t l).Pairwise
      (fun a b => b.created_at ≤ a.created_at) := by
  induction l with
  | nil => simp [insertByCreatedDesc]
  | cons v vs ih =>
      rcases List.pairwise_cons.mp h with ⟨hv, hvs⟩
      by_cases hle : v.created_at ≤ t.created_at
      · simp only [insertByCreatedDesc, hle, if_true]
        refine List.pairwise_cons.mpr ⟨?_, h⟩
        intro b hb
        rcases List.mem_cons.mp hb with rfl | hb
        · exact hle
        · exact le_trans (hv b hb) hle
      · simp only [insertByCreatedDesc, hle, if_false]
        refine List.pairwise_cons.mpr ⟨?_, ih hvs⟩
        intro b hb
        rcases mem_insertByCreatedDesc.mp hb with rfl | hb
        · exact le_of_not_le hle
        · exact hv b hb

theorem pairwise_orderByCreatedDesc (l : List TaskModel) :
    (orderByCreatedDesc l).Pairwise
      (fun a b => b.created_at ≤ a.created_at) := by
  induction l with
  | nil => simp [orderByCreatedDesc]
  | cons v vs ih => exact pairwise_insertByCreatedDesc ih

theorem isNone_eq_false_of_ne_none {α : Type} {o : Option α}
    (h : o ≠ none) : o.isNone = false := by
  cases o
  · exact absurd rfl h
  · rfl

theorem validCreate_iff (title : String) (description : Option String) :
    (validTitle title && validDescription description) = true ↔
      (3 ≤ title.length ∧ title.length ≤ 100 ∧
        ∀ s, description = some s → s.length ≤ 500) := by
  unfold validTitle validDescription
  cases description <;> simp [Bool.and_eq_true, decide_eq_true_eq]
  tauto

/-! ## Claim theorems -/

/-- C2: for every identifier that matches no stored task, each of get,
update, toggle and delete fails with the 404 not-found error whose message
names the requested identifier, and the store is left unchanged. -/
theorem absent_id_not_found (db : List TaskModel) (i : Nat)
    (p : TaskUpdate) (now : Nat) (habs : get_task_by_id db i = none) :
    get_task db i = .error (notFoundError i) ∧
    update_task db i p now = (.error (notFoundError i), db) ∧
    toggle_task_status db i now = (.error (notFoundError i), db) ∧
    delete_task db i = (.error (notFoundError i), db) ∧
    (notFoundError i).status_code = 404 ∧
    (notFoundError i).detail =
      "Task with id " ++ toString i ++ " not found" := by
  refine ⟨?_, ?_, ?_, ?_, rfl, rfl⟩ <;>
    simp [get_task, update_task, toggle_task_status, delete_task, habs]

theorem absent_id_not_found_witness :
    get_task [⟨1, none, none, some false, 0, 0⟩] 7 =
        .error (notFoundError 7) ∧
      delete_task [⟨1, none, none, some false, 0, 0⟩] 7 =
        (.error (notFoundError 7), [⟨1, none, none, some false, 0, 0⟩]) := by
  have h := absent_id_not_found [⟨1, none, none, some false, 0, 0⟩] 7
    ⟨none, none, none⟩ 3 (by decide)
  exact ⟨h.1, h.2.2.2.1⟩

/-- C3: the create pipeline accepts a request exactly when the title length
is within [3,100] and the description, if present, has length at most 500
(so both boundaries and an omitted description are accepted); every rejected
request yields a 422 error and inserts no task. -/
theorem create_validation_bounds (title : String)
    (description : Option String) (db : List TaskModel) (now newId : Nat) :
    ((∃ t, (post_task title description db now newId).1 = .ok t) ↔
      (3 ≤ title.length ∧ title.length ≤ 100 ∧
        ∀ s, description = some s → s.length ≤ 500)) ∧
    (∀ e, (post_task title description db now newId).1 = .error e →
      e.status_code = 422 ∧
      (post_task title description db now newId).2 = db) := by
  cases hb : (validTitle title && validDescription description) with
  | true =>
      have hv := (validCreate_iff title description).mp hb
      constructor
      · simp only [post_task, validateTaskCreate, hb, if_true]
        exact ⟨fun _ => hv, fun _ => ⟨_, rfl⟩⟩
      · intro e he
        simp [post_task, validateTaskCreate, hb] at he
  | false =>
      have hv : ¬(3 ≤ title.length ∧ title.length ≤ 100 ∧
          ∀ s, description = some s → s.length ≤ 500) := by
        intro hc
        rw [(validCreate_iff title description).mpr hc] at hb
        exact Bool.true_eq_false.mp hb
      constructor
      · constructor
        · intro ⟨t, ht⟩
          simp [post_task, validateTaskCreate, hb] at ht
        · intro hc
          exact absurd hc hv
      · intro e he
        simp only [post_task, validateTaskCreate, hb, Bool.false_eq_true,
          if_false] at he ⊢
        injection he with h
        exact ⟨by rw [← h], trivial⟩

theorem create_validation_bounds_witness :
    ((∃ t, (post_task "abc" none [] 0 1).1 = .ok t) ↔
      (3 ≤ "abc".length ∧ "abc".length ≤ 100 ∧
        ∀ s, (none : Option String) = some s → s.length ≤ 500)) ∧
    (∀ e, (post_task "abc" none [] 0 1).1 = .error e →
      e.status_code = 422 ∧ (post_task "abc" none [] 0 1).2 = []) :=
  create_validation_bounds "abc" none [] 0 1

/-- C5: the list endpoint with filter `true` returns exactly the stored
tasks whose completion flag is `true`, with filter `false` exactly those
whose flag is `false`, and with no filter every stored task. -/
theorem list_filter_exact (db : List TaskModel) (t : TaskModel) :
    (t ∈ get_all_tasks (some true) db ↔
      t ∈ db ∧ t.is_completed = some true) ∧
    (t ∈ get_all_tasks (some false) db ↔
      t ∈ db ∧ t.is_completed = some false) ∧
    (t ∈ get_all_tasks none db ↔ t ∈ db) := by
  unfold get_all_tasks
  simp [mem_orderByCreatedDesc, List.mem_filter, matchesFilter]

theorem list_filter_exact_witness :
    (⟨1, none, none, some true, 5, 5⟩ : TaskModel) ∈
      get_all_tasks (some true)
        [⟨1, none, none, some true, 5, 5⟩, ⟨2, none, none, some false, 6, 6⟩] :=
  (list_filter_exact
    [⟨1, none, none, some true, 5, 5⟩, ⟨2, none, none, some false, 6, 6⟩]
    ⟨1, none, none, some true, 5, 5⟩).1.mpr (by simp)

/-- C8: with a completion filter applied, the list endpoint returns the
matching tasks ordered by `created_at` descending: in the result, every
task precedes all tasks with a strictly smaller `created_at`. -/
theorem list_filtered_sorted_desc (c : Bool) (db : List TaskModel) :
    (get_all_tasks (some c) db).Pairwise
      (fun a b => b.created_at ≤ a.created_at) :=
  pairwise_orderByCreatedDesc _

/-- C10: with no completion filter, the list endpoint also returns the
tasks ordered by `created_at` descending, the same order as the filtered
case. -/
theorem list_unfiltered_sorted_desc (db : List TaskModel) :
    (get_all_tasks none db).Pairwise
      (fun a b => b.created_at ≤ a.created_at) :=
  pairwise_orderByCreatedDesc _

/-- C1 counterexample: the claim as stated quantifies over every partial
payload, including one whose `is_completed` is present with value null.
That payload passes pydantic validation, the target task exists, yet the
update does not overwrite the field and does not refresh `updated_at`:
`db.commit()` violates the NOT NULL `is_completed` column, the request
fails with a 500, and the store is left unchanged. -/
theorem update_merge_patch_cex :
    validateTaskUpdate ⟨none, none, some none⟩ =
      .ok ⟨none, none, some none⟩ ∧
    get_task_by_id [⟨1, some "Old", some "d", some false, 0, 0⟩] 1 =
      some ⟨1, some "Old", some "d", some false, 0, 0⟩ ∧
    put_task [⟨1, some "Old", some "d", some false, 0, 0⟩] 1
      ⟨none, none, some none⟩ 5 =
      (.error internalServerError,
        [⟨1, some "Old", some "d", some false, 0, 0⟩]) ∧
    internalServerError.status_code = 500 :=
  ⟨rfl, rfl, rfl, rfl⟩

/-- C1 (amended): for an existing task whose stored title and completion
flag are non-null (as the NOT NULL columns guarantee for every persisted
row) and a validated partial payload that does not set `title` or
`is_completed` to an explicit null, the update endpoint overwrites exactly
the fields present in the payload, keeps every omitted field at its prior
value, never touches `id` or `created_at`, and always sets `updated_at` to
the current time — so when the clock has advanced, `updated_at` strictly
increases; updating only the title leaves `description` and `is_completed`
unchanged. -/
theorem update_merge_patch (db : List TaskModel) (i now : Nat)
    (p : TaskUpdate) (t : TaskModel)
    (hval : validateTaskUpdate p = .ok p)
    (hfind : get_task_by_id db i = some t)
    (httl : t.title ≠ none) (htc : t.is_completed ≠ none)
    (hptl : p.title ≠ some none) (hpc : p.is_completed ≠ some none) :
    ∃ t', put_task db i p now = (.ok t', setTask db i t') ∧
      t'.id = t.id ∧ t'.created_at = t.created_at ∧ t'.updated_at = now ∧
      t'.title = p.title.getD t.title ∧
      t'.description = p.description.getD t.description ∧
      t'.is_completed = p.is_completed.getD t.is_completed ∧
      (t.updated_at < now → t.updated_at < t'.updated_at) ∧
      (p.title = none → t'.title = t.title) ∧
      (p.description = none → t'.description = t.description) ∧
      (p.is_completed = none → t'.is_completed = t.is_completed) := by
  have h1 : p.title.getD t.title ≠ none := by
    cases hp : p.title with
    | none => exact httl
    | some v =>
        cases v with
        | none => exact absurd hp hptl
        | some s => simp
  have h2 : p.is_completed.getD t.is_completed ≠ none := by
    cases hp : p.is_completed with
    | none => exact htc
    | some v =>
        cases v with
        | none => exact absurd hp hpc
        | some b => simp
  refine ⟨applyUpdate p t now, ?_, rfl, rfl, rfl, rfl, rfl, rfl,
    fun h => h, ?_, ?_, ?_⟩
  · simp [put_task, hval, update_task, hfind, applyUpdate,
      isNone_eq_false_of_ne_none h1, isNone_eq_false_of_ne_none h2]
  · intro h; simp [applyUpdate, h]
  · intro h; simp [applyUpdate, h]
  · intro h; simp [applyUpdate, h]

theorem update_merge_patch_witness :
    ∃ t', put_task [⟨1, some "Old", some "d", some false, 0, 0⟩] 1
        ⟨some (some "New"), none, none⟩ 5 =
        (.ok t',
          setTask [⟨1, some "Old", some "d", some false, 0, 0⟩] 1 t') ∧
      t'.id = 1 ∧ t'.created_at = 0 ∧ t'.updated_at = 5 ∧
      t'.title = some "New" ∧ t'.description = some "d" ∧
      t'.is_completed = some false ∧
      ((0 : Nat) < 5 → (0 : Nat) < t'.updated_at) ∧
      ((some (some "New") : Option (Option String)) = none →
        t'.title = some "Old") ∧
      ((none : Option (Option String)) = none → t'.description = some "d") ∧
      ((none : Option (Option Bool)) = none → t'.is_completed = some false) :=
  update_merge_patch [⟨1, some "Old", some "d", some false, 0, 0⟩] 1 5
    ⟨some (some "New"), none, none⟩ ⟨1, some "Old", some "d", some false, 0, 0⟩
    rfl rfl (by simp) (by simp) (by simp) (by simp)

/-- C4: for an existing task whose completion flag is the boolean `b`, one
toggle call yields the flag `!b` and refreshes `updated_at`; a second
toggle call on the resulting store restores the flag to `b`. -/
theorem toggle_involution (db : List TaskModel) (i n1 n2 : Nat)
    (t : TaskModel) (b : Bool)
    (hfind : get_task_by_id db i = some t) (hb : t.is_completed = some b) :
    ∃ t1 db1 t2 db2,
      toggle_task_status db i n1 = (.ok t1, db1) ∧
      t1.is_completed = some (!b) ∧ t1.updated_at = n1 ∧
      toggle_task_status db1 i n2 = (.ok t2, db2) ∧
      t2.is_completed = some b ∧ t2.updated_at = n2 := by
  have hid : t.id = i := id_of_get_task_by_id hfind
  have h1 : toggle_task_status db i n1 =
      (.ok { t with is_completed := some (!b), updated_at := n1 },
        setTask db i { t with is_completed := some (!b), updated_at := n1 }) := by
    simp [toggle_task_status, hfind, hb, pynot]
  have hfind1 : get_task_by_id
      (setTask db i { t with is_completed := some (!b), updated_at := n1 }) i =
      some { t with is_completed := some (!b), updated_at := n1 } :=
    get_task_by_id_setTask hfind hid
  have h2 : toggle_task_status
      (setTask db i { t with is_completed := some (!b), updated_at := n1 })
      i n2 =
      (.ok { t with is_completed := some b, updated_at := n2 },
        setTask
          (setTask db i { t with is_completed := some (!b), updated_at := n1 })
          i { t with is_completed := some b, updated_at := n2 }) := by
    simp [toggle_task_status, hfind1, pynot, Bool.not_not]
  exact ⟨_, _, _, _, h1, rfl, rfl, h2, rfl, rfl⟩

theorem toggle_involution_witness :
    ∃ t1 db1 t2 db2,
      toggle_task_status [⟨1, none, none, some false, 0, 0⟩] 1 3 =
        (.ok t1, db1) ∧
      t1.is_completed = some true ∧ t1.updated_at = 3 ∧
      toggle_task_status db1 1 7 = (.ok t2, db2) ∧
      t2.is_completed = some false ∧ t2.updated_at = 7 :=
  toggle_involution [⟨1, none, none, some false, 0, 0⟩] 1 3 7
    ⟨1, none, none, some false, 0, 0⟩ false rfl rfl

/-- C6: a successful create inserts a task with a fresh id whose
`created_at` equals its `updated_at` and whose completion flag is false,
and fetching that id from the resulting store returns exactly that task. -/
theorem create_then_get (title : String) (description : Option String)
    (db : List TaskModel) (now newId : Nat)
    (hval : (validTitle title && validDescription description) = true)
    (hfresh : ∀ u ∈ db, u.id ≠ newId) :
    ∃ t db', post_task title description db now newId = (.ok t, db') ∧
      t.id = newId ∧ get_task db' t.id = .ok t ∧
      t.created_at = t.updated_at ∧ t.is_completed = some false := by
  have hget : get_task_by_id
      (db ++ [(⟨newId, some title, description, some false, now, now⟩ :
        TaskModel)]) newId =
      some ⟨newId, some title, description, some false, now, now⟩ :=
    get_task_by_id_of_mem_append_fresh hfresh
  refine ⟨⟨newId, some title, description, some false, now, now⟩,
    db ++ [⟨newId, some title, description, some false, now, now⟩],
    ?_, rfl, ?_, rfl, rfl⟩
  · simp [post_task, validateTaskCreate, hval, create_task]
  · simp [get_task, hget]

theorem create_then_get_witness :
    ∃ t db', post_task "abc" none [] 9 2 = (.ok t, db') ∧
      t.id = 2 ∧ get_task db' t.id = .ok t ∧
      t.created_at = t.updated_at ∧ t.is_completed = some false :=
  create_then_get "abc" none [] 9 2 (by decide) (by simp)

/-- C7: the invariant `created_at ≤ updated_at` for every stored task is
established by create and preserved by update, toggle and delete, provided
the current clock value is at least every stored task's `created_at`. -/
theorem timestamps_invariant (db : List TaskModel) (i now newId : Nat)
    (title : String) (description : Option String) (p : TaskUpdate)
    (hInv : TimestampInv db) (hclock : ∀ u ∈ db, u.created_at ≤ now) :
    TimestampInv (post_task title description db now newId).2 ∧
    TimestampInv (update_task db i p now).2 ∧
    TimestampInv (toggle_task_status db i now).2 ∧
    TimestampInv (delete_task db i).2 := by
  refine ⟨?_, ?_, ?_, ?_⟩
  · cases hb : (validTitle title && validDescription description) with
    | false => simpa [post_task, validateTaskCreate, hb] using hInv
    | true =>
        simp only [post_task, validateTaskCreate, hb, if_true, create_task]
        intro u hu
        rcases List.mem_append.mp hu with hu | hu
        · exact hInv u hu
        · rcases List.mem_singleton.mp hu with rfl
          exact le_refl now
  · cases hf : get_task_by_id db i with
    | none => simpa [update_task, hf] using hInv
    | some t =>
        simp only [update_task, hf]
        split
        · exact hInv
        · intro u hu
          rcases mem_setTask hu with hu | rfl
          · exact hInv u hu
          · exact hclock t (mem_of_get_task_by_id hf)
  · cases hf : get_task_by_id db i with
    | none => simpa [toggle_task_status, hf] using hInv
    | some t =>
        simp only [toggle_task_status, hf]
        intro u hu
        rcases mem_setTask hu with hu | rfl
        · exact hInv u hu
        · exact hclock t (mem_of_get_task_by_id hf)
  · cases hf : get_task_by_id db i with
    | none => simpa [delete_task, hf] using hInv
    | some t =>
        simp only [delete_task, hf]
        intro u hu
        exact hInv u (mem_removeTask hu)

theorem timestamps_invariant_witness :
    TimestampInv
      (post_task "abc" none [⟨1, none, none, some false, 0, 3⟩] 5 2).2 ∧
    TimestampInv
      (update_task [⟨1, none, none, some false, 0, 3⟩] 1
        ⟨none, none, some (some true)⟩ 5).2 ∧
    TimestampInv
      (toggle_task_status [⟨1, none, none, some false, 0, 3⟩] 1 5).2 ∧
    TimestampInv (delete_task [⟨1, none, none, some false, 0, 3⟩] 1).2 :=
  timestamps_invariant [⟨1, none, none, some false, 0, 3⟩] 1 5 2 "abc" none
    ⟨none, none, some (some true)⟩
    (by intro u hu; rcases List.mem_singleton.mp hu with rfl; decide)
    (by intro u hu; rcases List.mem_singleton.mp hu with rfl; decide)

/-- C9 counterexample: the claim says a payload whose title is present with
value null "is applied to the record, rather than being rejected or
ignored". The payload does pass pydantic validation, but at an existing
task the commit violates the NOT NULL `title` column: the request fails
with a 500 and nothing is persisted — the store is unchanged. -/
theorem update_null_fields_cex :
    validateTaskUpdate ⟨some none, none, none⟩ =
      .ok ⟨some none, none, none⟩ ∧
    get_task_by_id [⟨2, some "Buy", some "d", some true, 0, 0⟩] 2 =
      some ⟨2, some "Buy", some "d", some true, 0, 0⟩ ∧
    put_task [⟨2, some "Buy", some "d", some true, 0, 0⟩] 2
      ⟨some none, none, none⟩ 5 =
      (.error internalServerError,
        [⟨2, some "Buy", some "d", some true, 0, 0⟩]) ∧
    internalServerError.status_code = 500 :=
  ⟨rfl, rfl, rfl, rfl⟩

/-- C9 (amended): update distinguishes explicit null from omission — a
present-null field is treated as supplied, not ignored. A payload whose
title is present with value null passes the endpoint's length validation
and `setattr` writes `None` into the in-memory record, but the commit then
violates the NOT NULL `title` column, so the request fails with a 500 and
the store is unchanged. A payload whose description is present with value
null clears the description (a nullable column), leaving the other fields
at their prior values. -/
theorem update_null_fields (db : List TaskModel) (i now : Nat)
    (t : TaskModel) (hfind : get_task_by_id db i = some t)
    (httl : t.title ≠ none) (htc : t.is_completed ≠ none) :
    (∃ q, validateTaskUpdate ⟨some none, none, none⟩ = .ok q) ∧
    (applyUpdate ⟨some none, none, none⟩ t now).title = none ∧
    put_task db i ⟨some none, none, none⟩ now =
      (.error internalServerError, db) ∧
    internalServerError.status_code = 500 ∧
    (∃ t2, put_task db i ⟨none, some none, none⟩ now =
        (.ok t2, setTask db i t2) ∧
      t2.description = none ∧ t2.title = t.title ∧
      t2.is_completed = t.is_completed) := by
  refine ⟨⟨⟨some none, none, none⟩, rfl⟩, rfl, ?_, rfl,
    ⟨applyUpdate ⟨none, some none, none⟩ t now, ?_, rfl, rfl, rfl⟩⟩
  · simp [put_task, validateTaskUpdate, update_task, hfind, applyUpdate]
  · simp [put_task, validateTaskUpdate, update_task, hfind, applyUpdate,
      isNone_eq_false_of_ne_none httl, isNone_eq_false_of_ne_none htc]

theorem update_null_fields_witness :
    (∃ q, validateTaskUpdate ⟨some none, none, none⟩ = .ok q) ∧
    (applyUpdate ⟨some none, none, none⟩
      ⟨1, some "Old", some "d", some true, 0, 0⟩ 5).title = none ∧
    put_task [⟨1, some "Old", some "d", some true, 0, 0⟩] 1
      ⟨some none, none, none⟩ 5 =
      (.error internalServerError,
        [⟨1, some "Old", some "d", some true, 0, 0⟩]) ∧
    internalServerError.status_code = 500 ∧
    (∃ t2, put_task [⟨1, some "Old", some "d", some true, 0, 0⟩] 1
        ⟨none, some none, none⟩ 5 =
        (.ok t2,
          setTask [⟨1, some "Old", some "d", some true, 0, 0⟩] 1 t2) ∧
      t2.description = none ∧ t2.title = some "Old" ∧
      t2.is_completed = some true) :=
  update_null_fields [⟨1, some "Old", some "d", some true, 0, 0⟩] 1 5
    ⟨1, some "Old", some "d", some true, 0, 0⟩ rfl (by simp) (by simp)
